import Mathlib

/-!
Verification of the section-matching engine of the flutter build.gradle
analysis script (src/flutter_github/__init__.py).

The script builds petitparser grammars for known build.gradle sections and
scans each file greedily: it repeatedly tries the registered section
grammars in order against the remaining text, consuming the first matching
prefix, until every outstanding section is persistent or not required, or
until no grammar matches.

The embedding below mirrors the petitparser combinators actually used by
the source (character.of, character.any_of, character.none_of, string.of,
star, plus, optional, sequence, ordered choice) as a small PEG over
List Char, with possessive (greedy, non-backtracking) repetition, which is
petitparser's semantics.  `parse g input` returns the unconsumed remainder
on success, which equals `text[token.stop:]` for the source's
`grammar.token().parse(text)` call.  Repetition is implemented with a fuel
argument bounded by the input length; since every repeated sub-grammar in
the source consumes at least one character on success, this coincides with
petitparser's loop on all grammars the source builds.
-/

/-- The petitparser combinators used by the source. -/
inductive Grammar where
  | chr (c : Char)
  | anyOf (s : String)
  | noneOf (s : String)
  | str (s : String)
  | star (g : Grammar)
  | plus (g : Grammar)
  | opt (g : Grammar)
  | seq (a b : Grammar)
  | alt (a b : Grammar)
deriving Repr

/-- Possessive repetition: apply `f` as long as it succeeds and makes
progress, at most `fuel` times, returning the final remainder. -/
def iterStar (f : List Char → Option (List Char)) : Nat → List Char → List Char
  | 0, input => input
  | fuel + 1, input =>
    match f input with
    | none => input
    | some rest => if rest.length < input.length then iterStar f fuel rest else input

/-- Attempt to match a prefix of `input`; on success return the unconsumed
remainder (petitparser PEG semantics: ordered choice, greedy repetition). -/
def parse : Grammar → List Char → Option (List Char)
  | .chr c, input =>
    match input with
    | [] => none
    | x :: rest => if x = c then some rest else none
  | .anyOf s, input =>
    match input with
    | [] => none
    | x :: rest => if s.toList.contains x then some rest else none
  | .noneOf s, input =>
    match input with
    | [] => none
    | x :: rest => if s.toList.contains x then none else some rest
  | .str s, input =>
    if s.toList.isPrefixOf input then some (input.drop s.toList.length) else none
  | .star g, input => some (iterStar (fun l => parse g l) input.length input)
  | .plus g, input =>
    match parse g input with
    | none => none
    | some rest => some (iterStar (fun l => parse g l) rest.length rest)
  | .opt g, input =>
    match parse g input with
    | none => some input
    | some rest => some rest
  | .seq a b, input =>
    match parse a input with
    | none => none
    | some rest => parse b rest
  | .alt a b, input =>
    match parse a input with
    | none => parse b input
    | some rest => some rest

/-- Source: `NEW_LINE_GRAMMAR = character.of("\n") & character.of(" ").star()`. -/
def NEW_LINE_GRAMMAR : Grammar :=
  .seq (.chr '\n') (.star (.chr ' '))

/-- Source: `COMMENT_GRAMMAR`, a single line comment:
spaces, then two slashes, then anything up to and including a newline. -/
def COMMENT_GRAMMAR : Grammar :=
  .seq (.seq (.seq (.star (.chr ' ')) (.str "//")) (.star (.noneOf "\n"))) (.chr '\n')

/-- Source: the `plugin_declaration_grammar` local of
OLD_PLUGINS_DECLARATION_GRAMMAR: the literal id-space, one quote character
from the class, one or more non-quote characters, one quote character from
the class. -/
def plugin_declaration_grammar : Grammar :=
  .seq (.seq (.seq (.str "id ") (.anyOf "\x27\x22")) (.plus (.noneOf "\x27\x22"))) (.anyOf "\x27\x22")

/-- Source: `OLD_PLUGINS_DECLARATION_GRAMMAR`, the legacy plugins block. -/
def OLD_PLUGINS_DECLARATION_GRAMMAR : Grammar :=
  .seq (.seq (.seq (.str "plugins \x7b") NEW_LINE_GRAMMAR)
    (.plus (.seq plugin_declaration_grammar NEW_LINE_GRAMMAR)))
    (.str "\x7d\n")

/-- Python str.format with a single positional argument, as used by the
source on templates with a single positional field: every occurrence of the
empty-brace field is replaced by the argument. -/
def pyFormatAux (arg : List Char) : List Char → List Char
  | [] => []
  | '\x7b' :: '\x7d' :: rest => arg ++ pyFormatAux arg rest
  | c :: rest => c :: pyFormatAux arg rest

/-- String wrapper of `pyFormatAux`. -/
def pyFormat (template arg : String) : String :=
  ⟨pyFormatAux arg.toList template.toList⟩

/-- Source: `build_flutter_property_grammar(name, key, *args)`.  The Python
function is overloaded: called with two extra arguments `(label,
description)` the body grammar is the throw statement; called with none it
is the direct quoted assignment.  `args` models the `*args` tuple. -/
def build_flutter_property_grammar (name key : String) (args : Option (String × String)) : Grammar :=
  let body_grammar : Grammar :=
    match args with
    | some (label, description) =>
      .seq (.seq (.seq (.str "throw") (.opt (.str " new"))) (.str " "))
        (.seq (.alt (.str "GradleException") (.str "FileNotFoundException"))
          (.str ("(\x22" ++ label ++ " not found. Define " ++ pyFormat description key ++
            " in the local.properties file.\x22)")))
    | none =>
      .seq (.seq (.seq (.str (name ++ " = ")) (.anyOf "\x27\x22")) (.plus (.noneOf "\x27\x22")))
        (.anyOf "\x27\x22")
  .seq (.seq (.seq (.seq (.seq (.seq
    (.str ("def " ++ name ++ " = localProperties.getProperty(\x27" ++ key ++ "\x27)"))
    NEW_LINE_GRAMMAR)
    (.str ("if (" ++ name ++ " == null) \x7b")))
    NEW_LINE_GRAMMAR)
    body_grammar)
    NEW_LINE_GRAMMAR)
    (.str "\x7d\n")

/-- Source: `build_properties_file_load_grammar(variable, file_variable, name)`.
The first Python parameter is named `variable`, a Lean keyword, hence `variable'`. -/
def build_properties_file_load_grammar (variable' file_variable name : String) : Grammar :=
  .seq (.seq (.seq (.seq (.seq (.seq (.seq (.seq (.seq (.seq (.seq
    (.str ("def " ++ variable' ++ " = new Properties()"))
    NEW_LINE_GRAMMAR)
    (.str ("def " ++ file_variable ++ " = rootProject.file(\x27" ++ name ++ "\x27)")))
    NEW_LINE_GRAMMAR)
    (.str ("if (" ++ file_variable ++ ".exists()) \x7b")))
    NEW_LINE_GRAMMAR)
    (.str (file_variable ++ ".")))
    (.alt (.str "withReader(\x27UTF-8\x27) \x7b reader ->")
      (.str "withInputStream \x7b stream ->")))
    NEW_LINE_GRAMMAR)
    (.seq (.seq (.str (variable' ++ ".load(")) (.alt (.str "reader") (.str "stream"))) (.str ")")))
    NEW_LINE_GRAMMAR)
    (.str "\x7d\n\x7d\n")

/-- Source: `class Section(typing.NamedTuple)` with fields grammar,
is_persistent, is_required. -/
structure Section where
  grammar : Grammar
  is_persistent : Bool
  is_required : Bool

/-- Source: the `sections` dict built in `main` for each file — an ordered
mapping from section id to descriptor. -/
def buildRegistry : List (String × Section) :=
  [ ("comment", ⟨COMMENT_GRAMMAR, true, false⟩),
    ("newline", ⟨.plus (.chr '\n'), true, false⟩),
    ("old_plugins", ⟨OLD_PLUGINS_DECLARATION_GRAMMAR, false, false⟩),
    ("localProperties",
      ⟨build_properties_file_load_grammar "localProperties" "localPropertiesFile" "local.properties",
       false, true⟩),
    ("keystoreProperties",
      ⟨build_properties_file_load_grammar "keystoreProperties" "keystorePropertiesFile" "key.properties",
       false, false⟩),
    ("flutterRoot",
      ⟨build_flutter_property_grammar "flutterRoot" "flutter.sdk"
        (some ("Flutter SDK", "location with \x7b\x7d")), false, true⟩) ]

/-- Source: the `while not sections_found or not all(...)` loop condition in
`main`: keep scanning while no section was matched yet, or while some
descriptor outside `sections_found` is non-persistent and required. -/
def shouldContinue (sections : List (String × Section)) (sections_found : List String) : Bool :=
  sections_found.isEmpty ||
    !(sections.all fun kv =>
      sections_found.contains kv.1 || kv.2.is_persistent || !kv.2.is_required)

/-- Source: the `for section_id, section in sections.items()` inner pass in
`main`: the first descriptor in registry order whose grammar matches a
prefix of the text wins; its id and the unconsumed remainder are returned. -/
def innerPass (sections : List (String × Section)) (text : List Char) :
    Option (String × List Char) :=
  match sections with
  | [] => none
  | (section_id, sec) :: rest =>
    match parse sec.grammar text with
    | some remainder => some (section_id, remainder)
    | none => innerPass rest text

/-- Source: the outer `while` loop of `main`, fuel-indexed.  `none` means
the fuel ran out before the loop finished; `some (found, true)` is the exit
through the loop condition (scan complete); `some (found, false)` is the
`break` taken when the inner pass finds no match (scan incomplete). -/
def scanLoop (sections : List (String × Section)) :
    Nat → List Char → List String → Option (List String × Bool)
  | 0, _, _ => none
  | fuel + 1, text, sections_found =>
    if shouldContinue sections sections_found then
      match innerPass sections text with
      | some (section_id, remainder) =>
        scanLoop sections fuel remainder (sections_found ++ [section_id])
      | none => some (sections_found, false)
    else
      some (sections_found, true)

/-- The scan of one file's text, as performed by `main`. -/
def scan (sections : List (String × Section)) (text : List Char) (fuel : Nat) :
    Option (List String × Bool) :=
  scanLoop sections fuel text []

/-- Scan termination: some fuel suffices for the loop to exit on its own. -/
def ScanTerminates (sections : List (String × Section)) (text : List Char) : Prop :=
  ∃ fuel result, scan sections text fuel = some result

/-- A state `(remaining_text, matched_ids)` of the scan loop reaches
another state by zero or more loop iterations. -/
inductive ScanReaches (sections : List (String × Section)) :
    (List Char × List String) → (List Char × List String) → Prop where
  | refl (s : List Char × List String) : ScanReaches sections s s
  | step {text remainder : List Char} {found : List String} {section_id : String}
      {s : List Char × List String}
      (hc : shouldContinue sections found = true)
      (hm : innerPass sections text = some (section_id, remainder))
      (ht : ScanReaches sections (remainder, found ++ [section_id]) s) :
      ScanReaches sections (text, found) s

/-- A grammar is progressive when every successful match consumes at least
one character.  This is a syntactic under-approximation sufficient for all
grammars the source builds. -/
def progressive : Grammar → Bool
  | .chr _ => true
  | .anyOf _ => true
  | .noneOf _ => true
  | .str s => !s.toList.isEmpty
  | .star _ => false
  | .plus g => progressive g
  | .opt _ => false
  | .seq a b => progressive a || progressive b
  | .alt a b => progressive a && progressive b

/-- The inter-line separator as the spec describes it: exactly one newline
character, then a greedy run of zero or more spaces.  Stated from the spec
to compare with `NEW_LINE_GRAMMAR`, which is taken from the source. -/
def newlineSpec (input : List Char) : Option (List Char) :=
  match input with
  | [] => none
  | c :: rest => if c = '\n' then some (rest.dropWhile fun x => x == ' ') else none

/-- The flutterRoot grammar exactly as `main` builds it: label and
description are supplied, so the body is the throw statement. -/
def flutterRootGrammar : Grammar :=
  build_flutter_property_grammar "flutterRoot" "flutter.sdk"
    (some ("Flutter SDK", "location with \x7b\x7d"))

/-- The same factory called through its two-argument overload (no label or
description), as the spec's direct-assignment body style would require. -/
def flutterRootAssignGrammar : Grammar :=
  build_flutter_property_grammar "flutterRoot" "flutter.sdk" none

/-- The localProperties grammar exactly as `main` builds it. -/
def localPropertiesGrammar : Grammar :=
  build_properties_file_load_grammar "localProperties" "localPropertiesFile" "local.properties"

/-- Spec scenario B input: the full properties-file load block. -/
def textScenarioB : String :=
  "def localProperties = new Properties()\ndef localPropertiesFile = rootProject.file(\x27local.properties\x27)\nif (localPropertiesFile.exists()) \x7b\n  localPropertiesFile.withReader(\x27UTF-8\x27) \x7b reader ->\n    localProperties.load(reader)\n  \x7d\n\x7d\n"

/-- A registry whose only (required) descriptor is localProperties. -/
def registryScenarioB : List (String × Section) :=
  [("localProperties", ⟨localPropertiesGrammar, false, true⟩)]

/-- Input with two consecutive legacy plugins blocks. -/
def textTwoPluginsBlocks : String :=
  "plugins \x7b\nid \x27a\x27\n\x7d\nplugins \x7b\nid \x27b\x27\n\x7d\n"

/-- A two-descriptor registry: a non-persistent optional section matching
the letter a, and a non-persistent required section matching the letter b. -/
def registryAB : List (String × Section) :=
  [("a", ⟨.chr 'a', false, false⟩), ("b", ⟨.chr 'b', false, true⟩)]

/-- A registry with a single persistent, non-required descriptor. -/
def registryNoRequired : List (String × Section) :=
  [("newline", ⟨.plus (.chr '\n'), true, false⟩)]

/-- A registry with a persistent descriptor whose grammar succeeds without
consuming input (a bare star), followed by a required descriptor. -/
def registryNullable : List (String × Section) :=
  [("sp", ⟨.star (.chr 'a'), true, false⟩), ("req", ⟨.chr 'b', false, true⟩)]

/-- flutterRoot block, throw body with the new keyword and GradleException. -/
def textFlutterThrowNew : String :=
  "def flutterRoot = localProperties.getProperty(\x27flutter.sdk\x27)\nif (flutterRoot == null) \x7b\n    throw new GradleException(\x22Flutter SDK not found. Define location with flutter.sdk in the local.properties file.\x22)\n\x7d\n"

/-- flutterRoot block, throw body without new and with FileNotFoundException. -/
def textFlutterThrowFnf : String :=
  "def flutterRoot = localProperties.getProperty(\x27flutter.sdk\x27)\nif (flutterRoot == null) \x7b\n    throw FileNotFoundException(\x22Flutter SDK not found. Define location with flutter.sdk in the local.properties file.\x22)\n\x7d\n"

/-- flutterRoot block, direct-assignment body. -/
def textFlutterAssign : String :=
  "def flutterRoot = localProperties.getProperty(\x27flutter.sdk\x27)\nif (flutterRoot == null) \x7b\n    flutterRoot = \x27/opt/flutter\x27\n\x7d\n"

/-- Legacy plugins block whose only declaration has mismatched quotes. -/
def textPluginsMismatched : String :=
  "plugins \x7b\nid \x22x\x27\n\x7d\n"

/-- Legacy plugins block with matching single quotes. -/
def textPluginsSingle : String :=
  "plugins \x7b\nid \x27x\x27\n\x7d\n"

/-- Legacy plugins block with matching double quotes. -/
def textPluginsDouble : String :=
  "plugins \x7b\nid \x22x\x22\n\x7d\n"

/-- Legacy plugins block with a blank line after the opener. -/
def textPluginsBlankLine : String :=
  "plugins \x7b\n\nid \x27a\x27\n\x7d\n"

/-- Legacy plugins block whose declaration is indented with a tab. -/
def textPluginsTab : String :=
  "plugins \x7b\n\tid \x27a\x27\n\x7d\n"

/-- Scenario B text with a blank line between the first two lines. -/
def textScenarioBBlankLine : String :=
  "def localProperties = new Properties()\n\ndef localPropertiesFile = rootProject.file(\x27local.properties\x27)\nif (localPropertiesFile.exists()) \x7b\n  localPropertiesFile.withReader(\x27UTF-8\x27) \x7b reader ->\n    localProperties.load(reader)\n  \x7d\n\x7d\n"

/-- Scenario B text indented with tabs instead of spaces. -/
def textScenarioBTab : String :=
  "def localProperties = new Properties()\ndef localPropertiesFile = rootProject.file(\x27local.properties\x27)\nif (localPropertiesFile.exists()) \x7b\n\tlocalPropertiesFile.withReader(\x27UTF-8\x27) \x7b reader ->\n\t\tlocalProperties.load(reader)\n\t\x7d\n\x7d\n"

/-- flutterRoot block with a blank line after the first line. -/
def textFlutterBlankLine : String :=
  "def flutterRoot = localProperties.getProperty(\x27flutter.sdk\x27)\n\nif (flutterRoot == null) \x7b\n    throw new GradleException(\x22Flutter SDK not found. Define location with flutter.sdk in the local.properties file.\x22)\n\x7d\n"

/-- flutterRoot block whose body line is indented with a tab. -/
def textFlutterTab : String :=
  "def flutterRoot = localProperties.getProperty(\x27flutter.sdk\x27)\nif (flutterRoot == null) \x7b\n\tthrow new GradleException(\x22Flutter SDK not found. Define location with flutter.sdk in the local.properties file.\x22)\n\x7d\n"

/-! General lemmas about the combinator semantics. -/

theorem iterStar_suffix (f : List Char → Option (List Char))
    (hf : ∀ i r, f i = some r → r <:+ i) :
    ∀ fuel input, iterStar f fuel input <:+ input := by
  intro fuel
  induction fuel with
  | zero => intro input; exact List.suffix_refl _
  | succ n ih =>
    intro input
    rw [iterStar]
    cases hfi : f input with
    | none => exact List.suffix_refl _
    | some rest =>
      by_cases hlen : rest.length < input.length
      · simp only [hlen, if_true]
        exact (ih rest).trans (hf input rest hfi)
      · simp only [hlen, if_false]
        exact List.suffix_refl _

theorem iterStar_length_le (f : List Char → Option (List Char)) :
    ∀ fuel input, (iterStar f fuel input).length ≤ input.length := by
  intro fuel
  induction fuel with
  | zero => intro input; exact Nat.le_refl _
  | succ n ih =>
    intro input
    rw [iterStar]
    cases f input with
    | none => exact Nat.le_refl _
    | some rest =>
      by_cases hlen : rest.length < input.length
      · simp only [hlen, if_true]
        exact Nat.le_trans (ih rest) (Nat.le_of_lt hlen)
      · simp only [hlen, if_false]
        exact Nat.le_refl _

theorem parse_suffix (g : Grammar) :
    ∀ input r, parse g input = some r → r <:+ input := by
  induction g with
  | chr c =>
    intro input r h
    match input with
    | [] => exact absurd h (by simp [parse])
    | x :: rest =>
      rw [parse] at h
      split at h
      · cases h; exact ⟨[x], rfl⟩
      · exact absurd h (by simp)
  | anyOf s =>
    intro input r h
    match input with
    | [] => exact absurd h (by simp [parse])
    | x :: rest =>
      rw [parse] at h
      split at h
      · cases h; exact ⟨[x], rfl⟩
      · exact absurd h (by simp)
  | noneOf s =>
    intro input r h
    match input with
    | [] => exact absurd h (by simp [parse])
    | x :: rest =>
      rw [parse] at h
      split at h
      · exact absurd h (by simp)
      · cases h; exact ⟨[x], rfl⟩
  | str s =>
    intro input r h
    rw [parse] at h
    split at h
    · cases h; exact List.drop_suffix _ _
    · exact absurd h (by simp)
  | star g ih =>
    intro input r h
    rw [parse] at h
    cases h
    exact iterStar_suffix _ (fun i r hir => ih i r hir) _ _
  | plus g ih =>
    intro input r h
    rw [parse] at h
    cases hp : parse g input with
    | none => rw [hp] at h; exact absurd h (by simp)
    | some rest =>
      rw [hp] at h
      cases h
      exact (iterStar_suffix _ (fun i r hir => ih i r hir) _ _).trans (ih input rest hp)
  | opt g ih =>
    intro input r h
    rw [parse] at h
    cases hp : parse g input with
    | none => rw [hp] at h; cases h; exact List.suffix_refl _
    | some rest => rw [hp] at h; cases h; exact ih input r hp
  | seq a b iha ihb =>
    intro input r h
    rw [parse] at h
    cases hp : parse a input with
    | none => rw [hp] at h; exact absurd h (by simp)
    | some rest =>
      rw [hp] at h
      exact (ihb rest r h).trans (iha input rest hp)
  | alt a b iha ihb =>
    intro input r h
    rw [parse] at h
    cases hp : parse a input with
    | none => rw [hp] at h; exact ihb input r h
    | some rest => rw [hp] at h; cases h; exact iha input r hp

theorem parse_length_le (g : Grammar) (input r : List Char)
    (h : parse g input = some r) : r.length ≤ input.length :=
  (parse_suffix g input r h).length_le

theorem parse_progressive (g : Grammar) (hg : progressive g = true) :
    ∀ input r, parse g input = some r → r.length < input.length := by
  induction g with
  | chr c =>
    intro input r h
    match input with
    | [] => exact absurd h (by simp [parse])
    | x :: rest =>
      rw [parse] at h
      split at h
      · cases h; simp
      · exact absurd h (by simp)
  | anyOf s =>
    intro input r h
    match input with
    | [] => exact absurd h (by simp [parse])
    | x :: rest =>
      rw [parse] at h
      split at h
      · cases h; simp
      · exact absurd h (by simp)
  | noneOf s =>
    intro input r h
    match input with
    | [] => exact absurd h (by simp [parse])
    | x :: rest =>
      rw [parse] at h
      split at h
      · exact absurd h (by simp)
      · cases h; simp
  | str s =>
    intro input r h
    rw [progressive] at hg
    have hs : s.toList ≠ [] := by
      intro he
      rw [he] at hg
      simp at hg
    rw [parse] at h
    split at h
    next hpre =>
      cases h
      have hle : s.toList.length ≤ input.length :=
        (List.isPrefixOf_iff_prefix.mp hpre).length_le
      have hpos : 0 < s.toList.length := List.length_pos.mpr hs
      rw [List.length_drop]
      omega
    · exact absurd h (by simp)
  | star g ih => exact absurd hg (by simp [progressive])
  | plus g ih =>
    intro input r h
    rw [progressive] at hg
    rw [parse] at h
    cases hp : parse g input with
    | none => rw [hp] at h; exact absurd h (by simp)
    | some rest =>
      rw [hp] at h
      cases h
      exact Nat.lt_of_le_of_lt (iterStar_length_le _ _ _) (ih hg input rest hp)
  | opt g ih => exact absurd hg (by simp [progressive])
  | seq a b iha ihb =>
    intro input r h
    rw [progressive] at hg
    rw [parse] at h
    cases hp : parse a input with
    | none => rw [hp] at h; exact absurd h (by simp)
    | some rest =>
      rw [hp] at h
      rcases Bool.or_eq_true_iff.mp hg with ha | hb
      · exact Nat.lt_of_le_of_lt (parse_length_le b rest r h) (iha ha input rest hp)
      · exact Nat.lt_of_lt_of_le (ihb hb rest r h) (parse_length_le a input rest hp)
  | alt a b iha ihb =>
    intro input r h
    rw [progressive] at hg
    obtain ⟨ha, hb⟩ := Bool.and_eq_true_iff.mp hg
    rw [parse] at h
    cases hp : parse a input with
    | none => rw [hp] at h; exact ihb hb input r h
    | some rest => rw [hp] at h; cases h; exact iha ha input r hp

/-! Lemmas about the inner pass and the scan loop. -/

theorem innerPass_suffix (sections : List (String × Section)) :
    ∀ text section_id r, innerPass sections text = some (section_id, r) → r <:+ text := by
  induction sections with
  | nil => intro text i r h; simp [innerPass] at h
  | cons kv rest ih =>
    intro text i r h
    obtain ⟨sid, sec⟩ := kv
    rw [innerPass] at h
    cases hp : parse sec.grammar text with
    | none => rw [hp] at h; exact ih text i r h
    | some rem =>
      rw [hp] at h
      cases h
      exact parse_suffix _ _ _ hp

theorem innerPass_none (sections : List (String × Section)) (text : List Char)
    (h : ∀ kv ∈ sections, parse kv.2.grammar text = none) :
    innerPass sections text = none := by
  induction sections with
  | nil => rfl
  | cons kv rest ih =>
    obtain ⟨sid, sec⟩ := kv
    rw [innerPass]
    rw [h ⟨sid, sec⟩ (by simp)]
    exact ih (fun kv hkv => h kv (by simp [hkv]))

theorem innerPass_progressive (sections : List (String × Section))
    (h : sections.all (fun kv => progressive kv.2.grammar) = true) :
    ∀ text section_id r, innerPass sections text = some (section_id, r) →
      r.length < text.length := by
  induction sections with
  | nil => intro text i r hm; simp [innerPass] at hm
  | cons kv rest ih =>
    intro text i r hm
    obtain ⟨sid, sec⟩ := kv
    rw [List.all_cons] at h
    obtain ⟨h1, h2⟩ := Bool.and_eq_true_iff.mp h
    rw [innerPass] at hm
    cases hp : parse sec.grammar text with
    | none => rw [hp] at hm; exact ih h2 text i r hm
    | some rem =>
      rw [hp] at hm
      cases hm
      exact parse_progressive _ h1 _ _ hp

theorem innerPass_append (pre sections : List (String × Section)) (text : List Char)
    (hpre : ∀ kv ∈ pre, parse kv.2.grammar text = none) :
    innerPass (pre ++ sections) text = innerPass sections text := by
  induction pre with
  | nil => rfl
  | cons kv rest ih =>
    obtain ⟨sid, sec⟩ := kv
    rw [List.cons_append, innerPass]
    rw [hpre ⟨sid, sec⟩ (by simp)]
    exact ih (fun kv hkv => hpre kv (by simp [hkv]))

theorem scanLoop_isSome (sections : List (String × Section))
    (h : sections.all (fun kv => progressive kv.2.grammar) = true) :
    ∀ fuel text found, text.length < fuel → (scanLoop sections fuel text found).isSome := by
  intro fuel
  induction fuel with
  | zero => intro text found hlen; omega
  | succ n ih =>
    intro text found hlen
    rw [scanLoop]
    by_cases hc : shouldContinue sections found
    · simp only [hc, if_true]
      cases hm : innerPass sections text with
      | none => rfl
      | some pr =>
        obtain ⟨i, r⟩ := pr
        have hlt := innerPass_progressive sections h text i r hm
        exact ih r (found ++ [i]) (by omega)
    · simp only [hc, if_false]
      rfl

theorem parse_seq (a b : Grammar) (input : List Char) :
    parse (.seq a b) input =
      match parse a input with
      | none => none
      | some rest => parse b rest := rfl

theorem parse_star (g : Grammar) (input : List Char) :
    parse (.star g) input = some (iterStar (fun l => parse g l) input.length input) := rfl

theorem iterStar_space_dropWhile :
    ∀ rest : List Char, iterStar (fun l => parse (.chr ' ') l) rest.length rest =
      rest.dropWhile (fun x => x == ' ') := by
  intro rest
  induction rest with
  | nil => rfl
  | cons c tl ih =>
    by_cases hc : c = ' '
    · subst hc
      rw [List.length_cons, iterStar]
      have hp : parse (.chr ' ') (' ' :: tl) = some tl := by simp [parse]
      rw [hp]
      simp only [List.length_cons, Nat.lt_succ_self, if_true]
      rw [ih]
      simp [List.dropWhile_cons]
    · rw [List.length_cons, iterStar]
      have hp : parse (.chr ' ') (c :: tl) = none := by simp [parse, hc]
      rw [hp]
      simp [List.dropWhile_cons, hc]

theorem newline_grammar_eq_spec (input : List Char) :
    parse NEW_LINE_GRAMMAR input = newlineSpec input := by
  match input with
  | [] => rfl
  | c :: rest =>
    by_cases hc : c = '\n'
    · subst hc
      show parse (.seq (.chr '\n') (.star (.chr ' '))) ('\n' :: rest) = _
      have hp1 : parse (.chr '\n') ('\n' :: rest) = some rest := by simp [parse]
      simp only [parse_seq, hp1, parse_star, iterStar_space_dropWhile]
      simp [newlineSpec]
    · show parse (.seq (.chr '\n') (.star (.chr ' '))) (c :: rest) = _
      have hp1 : parse (.chr '\n') (c :: rest) = none := by simp [parse, hc]
      simp only [parse_seq, hp1]
      simp [newlineSpec, hc]

theorem registryNullable_scanLoop_none :
    ∀ fuel found, "req" ∉ found → scanLoop registryNullable fuel [] found = none := by
  intro fuel
  induction fuel with
  | zero => intro found h; rfl
  | succ n ih =>
    intro found h
    have hc : shouldContinue registryNullable found = true := by
      simp [shouldContinue, registryNullable, h]
    have hm : innerPass registryNullable [] = some ("sp", []) := by decide
    rw [scanLoop, if_pos hc, hm]
    exact ih (found ++ ["sp"]) (by simp [h])

/-! Claim theorems. -/

/-- C1 (counterexample): it is not the case that a non-persistent section id
occurs at most once in matched_ids.  On the two-descriptor registry with a
required section still outstanding, input aa makes the scan match the
non-persistent section a twice, so the final matched_ids holds the id a
twice. -/
theorem nonpersistent_duplicate_counterexample :
    scan registryAB ("aa".toList) 10 = some (["a", "a"], false) ∧
    (registryAB.lookup "a").map Section.is_persistent = some false ∧
    List.count "a" ["a", "a"] = 2 := by
  decide

set_option maxRecDepth 10000 in
/-- C1 (amended): matched_ids may contain duplicate ids for non-persistent
sections.  The inner pass never consults matched_ids when selecting a
descriptor, so a non-persistent section whose pattern occurs again in the
remaining text is matched again while the loop continues.  Already in the
registry built by main, an input with two consecutive plugins blocks makes
the non-persistent old_plugins section appear twice in matched_ids. -/
theorem nonpersistent_sections_may_repeat :
    scan buildRegistry textTwoPluginsBlocks.toList 10 =
      some (["old_plugins", "old_plugins"], false) ∧
    (buildRegistry.lookup "old_plugins").map Section.is_persistent = some false := by
  decide

set_option maxRecDepth 10000 in
/-- C2 (counterexample): the flutterRoot matcher, built by
build_flutter_property_grammar with label and description, rejects the
direct-assignment body while accepting the throw body: there is no
alternation between the two body styles in one matcher. -/
theorem flutter_property_body_counterexample :
    parse flutterRootGrammar textFlutterAssign.toList = none ∧
    parse flutterRootGrammar textFlutterThrowNew.toList = some [] := by
  decide

set_option maxRecDepth 10000 in
/-- C2 (amended): a matcher produced by build_flutter_property_grammar
accepts exactly one body style, fixed at construction.  Built with label
and description (as the flutterRoot descriptor of the registry is), the
body must be a throw statement (with optional new, GradleException or
FileNotFoundException, and the formatted message); the direct-assignment
body is rejected.  Built through the two-argument overload, the body must
be the direct quoted assignment and the throw body is rejected. -/
theorem flutter_property_body_styles :
    (buildRegistry.lookup "flutterRoot").map Section.grammar = some flutterRootGrammar ∧
    parse flutterRootGrammar textFlutterThrowNew.toList = some [] ∧
    parse flutterRootGrammar textFlutterThrowFnf.toList = some [] ∧
    parse flutterRootGrammar textFlutterAssign.toList = none ∧
    parse flutterRootAssignGrammar textFlutterAssign.toList = some [] ∧
    parse flutterRootAssignGrammar textFlutterThrowNew.toList = none := by
  refine ⟨rfl, ?_, ?_, ?_, ?_, ?_⟩ <;> decide

set_option maxRecDepth 10000 in
/-- C3 (counterexample): the legacy plugins matcher does not reject a
declaration whose opening quote differs from its closing quote: the block
whose declaration opens with a double quote and closes with a single quote
is accepted in full. -/
theorem plugins_mismatched_quote_counterexample :
    parse OLD_PLUGINS_DECLARATION_GRAMMAR textPluginsMismatched.toList = some [] := by
  decide

/-- C3 (amended): each quote of a plugin declaration may independently be a
single or a double quote: blocks with matching single quotes, matching
double quotes, and mismatched quotes are all accepted, because the grammar
uses the any-of quote class separately at the opening and at the closing
position. -/
theorem plugins_quote_classes_independent :
    parse OLD_PLUGINS_DECLARATION_GRAMMAR textPluginsSingle.toList = some [] ∧
    parse OLD_PLUGINS_DECLARATION_GRAMMAR textPluginsDouble.toList = some [] ∧
    parse OLD_PLUGINS_DECLARATION_GRAMMAR textPluginsMismatched.toList = some [] := by
  decide

/-- C4 (counterexample): on empty input against a registry with no required
section, the scan does not exit successfully: the loop condition (no
section matched yet) forces one inner pass, which finds no match, and the
scan exits through the incomplete break with is_complete = false. -/
theorem empty_input_no_required_counterexample :
    (registryNoRequired.all fun kv => !kv.2.is_required) = true ∧
    scan registryNoRequired [] 5 = some ([], false) := by
  decide

/-- C4 (amended): for empty input text, against any registry none of whose
grammars accepts the empty string, the scan produces matched_ids = [] and
exits through the incomplete path (is_complete = false) in all cases, even
when the registry has no required section: the loop always performs one
inner pass, which finds no match. -/
theorem empty_input_scan_incomplete (sections : List (String × Section)) (fuel : Nat)
    (h : sections.all (fun kv => (parse kv.2.grammar []).isNone) = true) :
    scan sections [] (fuel + 1) = some ([], false) := by
  have hc : shouldContinue sections [] = true := by simp [shouldContinue]
  have hm : innerPass sections [] = none :=
    innerPass_none sections []
      (fun kv hkv => Option.isNone_iff_eq_none.mp (List.all_eq_true.mp h kv hkv))
  rw [scan, scanLoop, if_pos hc, hm]

set_option maxRecDepth 10000 in
theorem empty_input_scan_incomplete_witness :
    scan buildRegistry [] 1 = some ([], false) :=
  empty_input_scan_incomplete buildRegistry 0 (by decide)

/-- C5: the inner pass iterates descriptors in registry order.  If every
descriptor before id1 fails on the current text and both s1 (at id1) and s2
(at the later id2) match a prefix, the inner pass selects id1, its matched
span is consumed (the loop continues on s1's remainder r1), its id is
appended to matched_ids, and the outer loop restarts. -/
theorem scan_greedy_order (pre mid post : List (String × Section)) (id1 id2 : String)
    (s1 s2 : Section) (text r1 r2 : List Char) (found : List String) (fuel : Nat)
    (hpre : ∀ kv ∈ pre, parse kv.2.grammar text = none)
    (h1 : parse s1.grammar text = some r1)
    (h2 : parse s2.grammar text = some r2)
    (hcont : shouldContinue (pre ++ ((id1, s1) :: (mid ++ ((id2, s2) :: post)))) found = true) :
    innerPass (pre ++ ((id1, s1) :: (mid ++ ((id2, s2) :: post)))) text = some (id1, r1) ∧
    scanLoop (pre ++ ((id1, s1) :: (mid ++ ((id2, s2) :: post)))) (fuel + 1) text found =
      scanLoop (pre ++ ((id1, s1) :: (mid ++ ((id2, s2) :: post)))) fuel r1 (found ++ [id1]) := by
  have hip : innerPass (pre ++ ((id1, s1) :: (mid ++ ((id2, s2) :: post)))) text
      = some (id1, r1) := by
    rw [innerPass_append pre _ text hpre, innerPass, h1]
  exact ⟨hip, by rw [scanLoop, if_pos hcont, hip]⟩

theorem scan_greedy_order_witness :
    innerPass ([] ++ (("first", ⟨.str "ab", false, true⟩) ::
        ([] ++ (("second", ⟨.str "a", false, true⟩) :: [])))) ("abc".toList) =
      some ("first", ['c']) ∧
    scanLoop ([] ++ (("first", ⟨.str "ab", false, true⟩) ::
        ([] ++ (("second", ⟨.str "a", false, true⟩) :: [])))) 4 ("abc".toList) [] =
      scanLoop ([] ++ (("first", ⟨.str "ab", false, true⟩) ::
        ([] ++ (("second", ⟨.str "a", false, true⟩) :: [])))) 3 ['c'] ([] ++ ["first"]) :=
  scan_greedy_order [] [] [] "first" "second" ⟨.str "ab", false, true⟩ ⟨.str "a", false, true⟩
    ("abc".toList) ['c'] ['b', 'c'] [] 3 (by simp) (by decide) (by decide) (by decide)

/-- C6 (counterexample): the scan does not terminate for every text and
registry.  On the registry whose persistent first descriptor is a bare star
(which succeeds on the empty remainder without consuming anything) with a
required descriptor still outstanding, no amount of fuel makes the loop
exit: the inner pass keeps succeeding without shrinking the text. -/
theorem scan_nonterminating_counterexample : ¬ ScanTerminates registryNullable [] := by
  rintro ⟨fuel, result, h⟩
  rw [scan, registryNullable_scanLoop_none fuel [] (by simp)] at h
  exact Option.noConfusion h

/-- C6 (amended): for every text and every registry whose grammars all
consume at least one character on success (true of all six descriptors the
source registers), the scan terminates within length-of-text plus one outer
iterations, hence within (length + 1) times the registry size inner-pass
attempts: each successful match strictly shrinks the remaining text. -/
theorem scan_terminates_of_progressive (sections : List (String × Section)) (text : List Char)
    (h : sections.all (fun kv => progressive kv.2.grammar) = true) :
    ∃ result, scan sections text (text.length + 1) = some result :=
  Option.isSome_iff_exists.mp (scanLoop_isSome sections h (text.length + 1) text [] (by omega))

set_option maxRecDepth 10000 in
theorem scan_terminates_of_progressive_witness :
    ∃ result, scan buildRegistry ("\n".toList) ("\n".toList.length + 1) = some result :=
  scan_terminates_of_progressive buildRegistry ("\n".toList) (by decide)

set_option maxRecDepth 10000 in
/-- C7: scenario B — the full properties-file load block, scanned against a
registry whose only (required) descriptor is localProperties, is consumed
in full, and the scan reports matched_ids = [localProperties] with
is_complete = true. -/
theorem scenario_b_localProperties_complete :
    parse localPropertiesGrammar textScenarioB.toList = some [] ∧
    scan registryScenarioB textScenarioB.toList 3 = some (["localProperties"], true) := by
  decide

/-- C8: the registry built by main for each file holds exactly six
descriptors, in order: comment (persistent, not required), newline
(persistent, not required), old_plugins (neither), localProperties
(required, not persistent), keystoreProperties (neither), flutterRoot
(required, not persistent). -/
theorem registry_six_descriptors :
    buildRegistry.length = 6 ∧
    buildRegistry.map (fun kv => (kv.1, kv.2.is_persistent, kv.2.is_required)) =
      [("comment", true, false), ("newline", true, false), ("old_plugins", false, false),
       ("localProperties", false, true), ("keystoreProperties", false, false),
       ("flutterRoot", false, true)] :=
  ⟨rfl, rfl⟩

/-- C9: at every point of the scan loop the remaining text is a suffix of
the text the loop started from: whenever the loop state st reaches state s,
the remaining text of s is a suffix of the remaining text of st; in
particular every state reachable from the initial state carries a suffix of
the original input. -/
theorem remaining_text_suffix (sections : List (String × Section))
    (st s : List Char × List String) (h : ScanReaches sections st s) :
    s.1 <:+ st.1 := by
  induction h with
  | refl s => exact List.suffix_refl _
  | step hc hm ht ih => exact ih.trans (innerPass_suffix _ _ _ _ hm)

theorem remaining_text_suffix_witness : (['a'] : List Char) <:+ ['a', 'a'] :=
  remaining_text_suffix registryAB (['a', 'a'], []) (['a'], ["a"])
    (ScanReaches.step (by decide) (by decide) (ScanReaches.refl _))

set_option maxRecDepth 10000 in
/-- C10: the inter-line separator NEW_LINE_GRAMMAR accepts exactly one
newline character followed by a greedy run of zero or more spaces (it
equals the spec-side newlineSpec on every input); consequently the legacy
plugins matcher, the properties-file-load matcher and the Flutter-SDK
property matcher each reject the variant of their input whose lines are
separated by a blank line, and the variant indented with tabs instead of
spaces. -/
theorem newline_separator_spec :
    (∀ input : List Char, parse NEW_LINE_GRAMMAR input = newlineSpec input) ∧
    parse OLD_PLUGINS_DECLARATION_GRAMMAR textPluginsBlankLine.toList = none ∧
    parse OLD_PLUGINS_DECLARATION_GRAMMAR textPluginsTab.toList = none ∧
    parse localPropertiesGrammar textScenarioBBlankLine.toList = none ∧
    parse localPropertiesGrammar textScenarioBTab.toList = none ∧
    parse flutterRootGrammar textFlutterBlankLine.toList = none ∧
    parse flutterRootGrammar textFlutterTab.toList = none := by
  refine ⟨newline_grammar_eq_spec, ?_, ?_, ?_, ?_, ?_, ?_⟩ <;> decide
